import Mathlib

/-!
Verification development for the voice-agents repository.

The repository contains two agents built on an external voice framework:

* `src/backend/src/agent.py` — a Game Master agent keeping a JSON-persisted
  `WorldState` (player character, NPCs, locations, events, quests) mutated by
  tool calls such as `update_player_stats` and `add_to_inventory`, saved with
  `json.dump(state, f, indent=2, ensure_ascii=False)`.

* a fraud-alert verification agent (`FraudAlertAgent`) exercised by
  `src/backend/tests/test_agent.py` and described in the design document, whose
  implementation file is not part of the checked-out sources.  Its verification
  state machine (`verify_security_answer`, `update_case_status`, the masking of
  `securityAnswer`, the attempts counter) is modelled here from the design
  document, as marked on each definition.

Machine integers of the source are Python arbitrary-precision integers, so they
are embedded as `Int`/`Nat` with no overflow.  File input/output is embedded as
explicit state passing over a small filesystem value, and the outcome of
`json.load` on a file (absent / raising on malformed content / succeeding) is
embedded as a three-way sum.
-/

namespace VoiceAgents

/-! ## JSON values and the Python `json.dump(_, indent=2, ensure_ascii=False)` model

The world state of the Game Master agent only ever serializes null-free
booleans, integers, strings, arrays and objects, so a JSON value is embedded as
the inductive below (with `Int` numbers; no floats occur in the serialized
world state). -/

inductive Json where
  | null : Json
  | bool (b : Bool) : Json
  | num (n : Int) : Json
  | str (s : String) : Json
  | arr (items : List Json) : Json
  | obj (entries : List (String × Json)) : Json

/-- Lower-case hexadecimal digit, used for `\u00XX` escapes of control
characters. -/
def hexDigit (n : Nat) : Char :=
  if n < 10 then Char.ofNat (n + 48) else Char.ofNat (n - 10 + 97)

/-- Escaping of a single character inside a JSON string literal, following
Python's `json` encoder with `ensure_ascii=False` (the flag the source passes):
quote, backslash and the short control escapes are backslash-escaped, the
remaining control characters below U+0020 become `\u00XX`, and every other
character — in particular every non-ASCII character — is emitted verbatim. -/
def escapeChar (c : Char) : String :=
  if c = '"' then "\\\""
  else if c = '\\' then "\\\\"
  else if c = '\n' then "\\n"
  else if c = '\r' then "\\r"
  else if c = '\t' then "\\t"
  else if c = '\x08' then "\\b"
  else if c = '\x0c' then "\\f"
  else if c.toNat < 32 then
    "\\u00" ++ String.mk [hexDigit (c.toNat / 16), hexDigit (c.toNat % 16)]
  else String.singleton c

/-- Escape a list of characters one by one. -/
def escapeList : List Char → String
  | [] => ""
  | c :: cs => escapeChar c ++ escapeList cs

/-- A JSON string literal: the escaped characters between double quotes. -/
def encodeString (s : String) : String :=
  "\"" ++ escapeList s.data ++ "\""

/-- `w * d` spaces: the indentation prefix at nesting depth `d` with an
`indent=w` argument. -/
def indentStr (w d : Nat) : String :=
  String.mk (List.replicate (w * d) ' ')

mutual

/-- Serialization of a JSON value following Python's
`json.dump(obj, f, indent=w, ensure_ascii=False)`: scalars print on one line,
non-empty containers open with a newline, indent every element by `w` spaces
per depth level, separate elements with `",\n"` and close on a fresh line at
the parent's depth; empty containers print as `[]` / `{}`. -/
def dumps (w : Nat) : Json → Nat → String
  | .null, _ => "null"
  | .bool true, _ => "true"
  | .bool false, _ => "false"
  | .num n, _ => toString n
  | .str s, _ => encodeString s
  | .arr [], _ => "[]"
  | .arr (x :: xs), d =>
      "[\n" ++ dumpsItems w (x :: xs) (d + 1) ++ "\n" ++ indentStr w d ++ "]"
  | .obj [], _ => "\x7b\x7d"
  | .obj (e :: es), d =>
      "\x7b\n" ++ dumpsEntries w (e :: es) (d + 1) ++ "\n" ++ indentStr w d ++ "\x7d"

/-- The comma-and-newline separated, indented items of a non-empty array. -/
def dumpsItems (w : Nat) : List Json → Nat → String
  | [], _ => ""
  | [x], d => indentStr w d ++ dumps w x d
  | x :: y :: xs, d =>
      indentStr w d ++ dumps w x d ++ ",\n" ++ dumpsItems w (y :: xs) d

/-- The comma-and-newline separated, indented `"key": value` entries of a
non-empty object. -/
def dumpsEntries (w : Nat) : List (String × Json) → Nat → String
  | [], _ => ""
  | [(k, v)], d => indentStr w d ++ encodeString k ++ ": " ++ dumps w v d
  | (k, v) :: e :: es, d =>
      indentStr w d ++ encodeString k ++ ": " ++ dumps w v d ++ ",\n" ++
        dumpsEntries w (e :: es) d

end

/-! ## Filesystem model

File input/output of the agents is whole-file reads and writes plus
`Path.mkdir(parents=True, exist_ok=True)`, so a filesystem is a set of
directories plus an association list from paths (lists of path segments) to
string contents. -/

structure FileSystem where
  dirs : List (List String)
  files : List (List String × String)

/-- Content of the file at `p`, if present. -/
def readFile (fs : FileSystem) (p : List String) : Option String :=
  (fs.files.find? (fun e => e.1 == p)).map (·.2)

/-- Overwrite (or create) the file at `p` with `content`. -/
def setFile (files : List (List String × String)) (p : List String)
    (content : String) : List (List String × String) :=
  (p, content) :: files.filter (fun e => e.1 ≠ p)

/-- Ensure directory `d` exists (`mkdir(parents=True, exist_ok=True)` on the
single parent directory the agent uses). -/
def ensureDir (fs : FileSystem) (d : List String) : FileSystem :=
  { fs with dirs := if d ∈ fs.dirs then fs.dirs else d :: fs.dirs }

/-- `GAME_STATE_PATH.parent`, the `shared-data` directory. -/
def gameStateDir : List String := ["shared-data"]

/-- `GAME_STATE_PATH`: `shared-data/game_state.json` (relative to the
repository root the source resolves against). -/
def gameStatePath : List String := ["shared-data", "game_state.json"]

/-! ## Game Master world state (embedded from `src/backend/src/agent.py`)

Python `Dict[str, int]` / `Dict[str, Character]` fields are embedded as
association lists (Python dicts preserve insertion order and the source only
updates existing keys or inserts new ones). -/

/-- `Character` dataclass: player character or NPC. -/
structure Character where
  name : String
  role : String := ""
  hp : Int := 100
  max_hp : Int := 100
  attributes : List (String × Int) :=
    [("strength", 10), ("intelligence", 10), ("dexterity", 10), ("luck", 10)]
  inventory : List String := []
  traits : List String := []
  attitude : String := "neutral"
deriving DecidableEq

/-- `Location` dataclass: a game location. -/
structure Location where
  name : String
  description : String
  paths : List String := []
  visited : Bool := false
deriving DecidableEq

/-- An entry of `WorldState.events`, as built by `WorldState.add_event`:
`\x7b"type", "description", "timestamp", "metadata"\x7d`. -/
structure GameEvent where
  type : String
  description : String
  timestamp : String
  metadata : Json

/-- An entry of `WorldState.quests`, as built by `WorldState.add_quest`. -/
structure Quest where
  title : String
  description : String
  status : String
deriving DecidableEq

/-- `WorldState` dataclass: complete game world state. -/
structure WorldState where
  player : Character
  npcs : List (String × Character) := []
  current_location : String := "The Starting Point"
  locations : List (String × Location) := []
  events : List GameEvent := []
  quests : List Quest := []
  session_id : String := ""
  turn_count : Int := 0

/-- `Character.to_dict` (`dataclasses.asdict`): fields in declaration order. -/
def Character.to_dict (c : Character) : Json :=
  .obj [("name", .str c.name), ("role", .str c.role), ("hp", .num c.hp),
        ("max_hp", .num c.max_hp),
        ("attributes", .obj (c.attributes.map (fun p => (p.1, Json.num p.2)))),
        ("inventory", .arr (c.inventory.map .str)),
        ("traits", .arr (c.traits.map .str)),
        ("attitude", .str c.attitude)]

/-- `Location.to_dict` (`dataclasses.asdict`): fields in declaration order. -/
def Location.to_dict (l : Location) : Json :=
  .obj [("name", .str l.name), ("description", .str l.description),
        ("paths", .arr (l.paths.map .str)), ("visited", .bool l.visited)]

/-- Serialization of an event dict, key order as built by `add_event`. -/
def GameEvent.to_dict (e : GameEvent) : Json :=
  .obj [("type", .str e.type), ("description", .str e.description),
        ("timestamp", .str e.timestamp), ("metadata", e.metadata)]

/-- Serialization of a quest dict, key order as built by `add_quest`. -/
def Quest.to_dict (q : Quest) : Json :=
  .obj [("title", .str q.title), ("description", .str q.description),
        ("status", .str q.status)]

/-- `WorldState.to_dict`: the dict literal the source builds. -/
def WorldState.to_dict (ws : WorldState) : Json :=
  .obj [("player", ws.player.to_dict),
        ("npcs", .obj (ws.npcs.map (fun p => (p.1, p.2.to_dict)))),
        ("current_location", .str ws.current_location),
        ("locations", .obj (ws.locations.map (fun p => (p.1, p.2.to_dict)))),
        ("events", .arr (ws.events.map GameEvent.to_dict)),
        ("quests", .arr (ws.quests.map Quest.to_dict)),
        ("session_id", .str ws.session_id),
        ("turn_count", .num ws.turn_count)]

/-- `WorldState.add_event`: appends an event record carrying the current
timestamp (passed explicitly as `now`, standing for
`datetime.now(UTC).isoformat()`) and a metadata dict defaulting to empty. -/
def WorldState.add_event (ws : WorldState) (event_type description now : String)
    (metadata : Json) : WorldState :=
  { ws with events := ws.events ++
      [{ type := event_type, description := description, timestamp := now,
         metadata := metadata }] }

/-- `GameMasterAgent._save_world_state`: serializes `world_state.to_dict()`
with `json.dump(_, f, indent=2, ensure_ascii=False)` into `GAME_STATE_PATH`,
creating the parent directory first. -/
def saveWorldState (ws : WorldState) (fs : FileSystem) : FileSystem :=
  let fs1 := ensureDir fs gameStateDir
  { fs1 with files := setFile fs1.files gameStatePath (dumps 2 ws.to_dict 0) }

/-- The outcome of reading and decoding the game-state file: the file may be
absent, may make `json.load` or `WorldState.from_dict` raise (malformed), or
may decode to a world state. -/
inductive GameFile where
  | absent : GameFile
  | malformed (raw : String) : GameFile
  | wellFormed (state : WorldState) : GameFile

/-- `GameMasterAgent._load_world_state`: returns `True` and replaces the
in-memory world state when the file exists and decodes; returns `False` and
leaves the current world state untouched when the file is absent or any
exception is raised while reading it (the `try`/`except` swallows it). -/
def loadWorldState : GameFile → WorldState → Bool × WorldState
  | .absent, ws => (false, ws)
  | .malformed _, ws => (false, ws)
  | .wellFormed st, _ => (true, st)

/-- `update_player_stats` body: clamp `hp + hp_change` into `[0, max_hp]`
when `hp_change ≠ 0`, and when `attribute` is non-empty, `value ≠ 0` and the
attribute exists, raise it by `value` but never below 1; then save. The
returned payload is `\x7b"status": "updated", "player": ...\x7d`. -/
def update_player_stats (ws : WorldState) (fs : FileSystem) (hp_change : Int)
    (attr : String) (value : Int) : Json × WorldState × FileSystem :=
  let p0 := ws.player
  let p1 := if hp_change ≠ 0 then
      { p0 with hp := max 0 (min p0.max_hp (p0.hp + hp_change)) }
    else p0
  let p2 := if attr ≠ "" ∧ value ≠ 0 then
      if (p1.attributes.map Prod.fst).contains attr then
        { p1 with attributes := p1.attributes.map (fun q =>
            if q.1 = attr then (q.1, max 1 (q.2 + value)) else q) }
      else p1
    else p1
  let ws2 := { ws with player := p2 }
  (.obj [("status", .str "updated"), ("player", p2.to_dict)], ws2,
    saveWorldState ws2 fs)

/-- Result payload of `add_to_inventory`. -/
inductive InvResult where
  | added (item : String) (inventory : List String) : InvResult
  | already_owned (item : String) : InvResult
deriving DecidableEq

/-- `add_to_inventory` body: when the item is not yet in the inventory, append
it, record an `item_found` event and save; otherwise report `already_owned`
and change nothing (`now` stands for the event timestamp). -/
def add_to_inventory (ws : WorldState) (fs : FileSystem) (item now : String) :
    InvResult × WorldState × FileSystem :=
  if item ∉ ws.player.inventory then
    let ws1 := { ws with player :=
      { ws.player with inventory := ws.player.inventory ++ [item] } }
    let ws2 := ws1.add_event "item_found" ("Found: " ++ item) now (.obj [])
    (.added item ws2.player.inventory, ws2, saveWorldState ws2 fs)
  else
    (.already_owned item, ws, fs)

/-! ## Fraud verification core

The `FraudAlertAgent` implementation file is not among the checked-out
sources (only its tests are), so the definitions below are modelled from the
design document (§3, §4.1, §4.2, §7), as marked on each one. -/

/-- Modelled from the spec: a persisted `CaseRecord` (§3). `currency`,
`status` and `outcomeNote` may be absent on a stored record (the masking rule
gives them defaults), so they are `Option String`; the transaction descriptive
fields are opaque pass-through strings. -/
structure CaseRecord where
  caseId : String
  userName : String
  securityQuestion : String
  securityAnswer : String
  cardMask : String
  transactionAmount : String
  currency : Option String
  transactionName : String
  transactionCategory : String
  transactionSource : String
  location : String
  transactionTime : String
  channel : String
  status : Option String
  outcomeNote : Option String
  createdAt : String
  updatedAt : String
deriving DecidableEq

/-- Modelled from the spec: the per-conversation `SessionState` (§3). -/
structure SessionState where
  activeCase : Option CaseRecord
  isVerified : Bool
  verificationAttempts : Nat
deriving DecidableEq

/-- Modelled from the spec: `MAX_VERIFICATION_ATTEMPTS` (constant = 2). -/
def MAX_VERIFICATION_ATTEMPTS : Nat := 2

/-- Whitespace trimming from both ends (Python `str.strip()` /
`String.trim`), written over the character list. -/
def trimString (s : String) : String :=
  String.mk (((s.data.dropWhile Char.isWhitespace).reverse.dropWhile
    Char.isWhitespace).reverse)

/-- Modelled from the spec: answer normalization — trim whitespace from both
ends, then lowercase. -/
def normalizeAnswer (s : String) : String :=
  String.mk ((trimString s).data.map Char.toLower)

/-- Modelled from the spec: the caller-facing view of a case. It carries every
`CaseRecord` field except `securityAnswer`, with the documented defaults
filled in for `currency`, `status` and `outcomeNote`. -/
structure CaseView where
  caseId : String
  userName : String
  securityQuestion : String
  cardMask : String
  transactionAmount : String
  currency : String
  transactionName : String
  transactionCategory : String
  transactionSource : String
  location : String
  transactionTime : String
  channel : String
  status : String
  outcomeNote : String
  createdAt : String
  updatedAt : String
deriving DecidableEq

/-- Modelled from the spec: the masking rule (§4.2) — `securityAnswer` is
never included in a returned view; all other fields pass through, with
`currency` defaulting to `"USD"` and `status`/`outcomeNote` defaulting to
`"pending_review"`/`""` when absent on the stored record. -/
def maskCase (c : CaseRecord) : CaseView :=
  { caseId := c.caseId
    userName := c.userName
    securityQuestion := c.securityQuestion
    cardMask := c.cardMask
    transactionAmount := c.transactionAmount
    currency := c.currency.getD "USD"
    transactionName := c.transactionName
    transactionCategory := c.transactionCategory
    transactionSource := c.transactionSource
    location := c.location
    transactionTime := c.transactionTime
    channel := c.channel
    status := c.status.getD "pending_review"
    outcomeNote := c.outcomeNote.getD ""
    createdAt := c.createdAt
    updatedAt := c.updatedAt }

/-- Result of `verify_security_answer`: either the verdict with the attempt
counters, or a structured error (no case loaded). -/
inductive VerifyResult where
  | ok (verified : Bool) (attemptsUsed : Nat) (attemptsLeft : Nat) : VerifyResult
  | error (message : String) : VerifyResult
deriving DecidableEq

/-- Modelled from the spec: `verify_security_answer` (§4.2). Requires an
active case; increments the attempt counter unconditionally; compares the
provided and stored answers after normalization; reports
`attempts_left = MAX_VERIFICATION_ATTEMPTS - attempts` floored at 0 (`Nat`
subtraction). No hard stop is applied at `MAX_VERIFICATION_ATTEMPTS`. -/
def verifyAnswer (st : SessionState) (answer : String) :
    VerifyResult × SessionState :=
  match st.activeCase with
  | none => (.error "No fraud case loaded", st)
  | some c =>
      let attempts := st.verificationAttempts + 1
      let isMatch := normalizeAnswer answer == normalizeAnswer c.securityAnswer
      (.ok isMatch attempts (MAX_VERIFICATION_ATTEMPTS - attempts),
       { st with verificationAttempts := attempts, isVerified := isMatch })

/-- Modelled from the spec: the three terminal statuses accepted by
`update_case_status`. -/
def ALLOWED_STATUSES : List String :=
  ["confirmed_safe", "confirmed_fraud", "verification_failed"]

/-- Result payload of `update_case_status`. -/
inductive UpdateResult where
  | updated (case : CaseView) : UpdateResult
  | error (message : String) : UpdateResult
deriving DecidableEq

/-- Everything `update_case_status` leaves behind: the structured result, the
session state, the backing file's record list, and whether the file was
written. -/
structure UpdateOutcome where
  result : UpdateResult
  session : SessionState
  file : List CaseRecord
  wrote : Bool
deriving DecidableEq

/-- Modelled from the spec: `update_case_status` / `updateDisposition` (§4.2).
Requires an active case; validates the status against the allowed set and the
note against being non-empty after trimming, failing without touching session
state or the file; locates the record by `caseId` in the persisted list,
failing (no write) when absent; on success mutates `status`, trimmed
`outcomeNote` and `updatedAt` (the current UTC timestamp passed as `now`) on
the matching record, writes the full list back and repoints the session's
active case at the mutated record. -/
def updateCaseStatus (st : SessionState) (file : List CaseRecord)
    (status note now : String) : UpdateOutcome :=
  match st.activeCase with
  | none => ⟨.error "No fraud case loaded", st, file, false⟩
  | some c =>
      if status ∉ ALLOWED_STATUSES then
        ⟨.error "status must be one of: confirmed_safe, confirmed_fraud, verification_failed",
         st, file, false⟩
      else if trimString note = "" then
        ⟨.error "note must be non-empty", st, file, false⟩
      else
        match file.find? (fun r => r.caseId == c.caseId) with
        | none => ⟨.error "case record not found in store", st, file, false⟩
        | some r0 =>
            let r1 := { r0 with status := some status
                                outcomeNote := some (trimString note)
                                updatedAt := now }
            let file2 := file.map (fun r =>
              if r.caseId == c.caseId then
                { r with status := some status
                         outcomeNote := some (trimString note)
                         updatedAt := now }
              else r)
            ⟨.updated (maskCase r1), { st with activeCase := some r1 },
             file2, true⟩

/-- The outcome of reading the fraud-case backing file: absent, malformed
(`json.load` raises), or a decoded list of case records. -/
inductive FraudFile where
  | absent : FraudFile
  | malformed (raw : String) : FraudFile
  | wellFormed (cases : List CaseRecord) : FraudFile

/-- Modelled from the spec: `loadAll` (§4.1) — reads the backing file and
returns the empty sequence when the file is absent or its content is
malformed (logged as a warning, not fatal). -/
def loadAll : FraudFile → List CaseRecord
  | .absent => []
  | .malformed _ => []
  | .wellFormed cs => cs

/-! ## Concrete sample inputs

The seeded record of `src/backend/tests/test_agent.py` and session states
built from it, used by the witnesses below. -/

/-- The case record seeded by the test fixture (`sample_cases`). -/
def sampleCase : CaseRecord :=
  { caseId := "CASE-001"
    userName := "John"
    securityQuestion := "What is your favorite color?"
    securityAnswer := "blue"
    cardMask := "**** 4242"
    transactionAmount := "150.25"
    currency := some "USD"
    transactionName := "Acme Gadgets"
    transactionCategory := "e-commerce"
    transactionSource := "acme.example"
    location := "New York, USA"
    transactionTime := "2025-11-20T02:15:00Z"
    channel := "online"
    status := some "pending_review"
    outcomeNote := some ""
    createdAt := "2025-11-20T02:20:00Z"
    updatedAt := "2025-11-20T02:20:00Z" }

/-- A second record, for the frame part of the round-trip witness. -/
def otherCase : CaseRecord :=
  { sampleCase with caseId := "CASE-002"
                    userName := "Mary"
                    securityAnswer := "green" }

/-- Session right after a successful `load_fraud_case("John")`. -/
def sampleSession : SessionState :=
  { activeCase := some sampleCase, isVerified := false,
    verificationAttempts := 0 }

/-- Session whose attempt counter already exceeds
`MAX_VERIFICATION_ATTEMPTS`. -/
def exhaustedSession : SessionState :=
  { activeCase := some sampleCase, isVerified := false,
    verificationAttempts := 5 }

/-- A small world state: the adventurer with two inventory items. -/
def sampleWorld : WorldState :=
  { player := { name := "Adventurer", role := "player", hp := 50,
                inventory := ["torch", "rope"] } }

/-- An empty filesystem. -/
def emptyFS : FileSystem := { dirs := [], files := [] }

/-! ## Helper lemmas -/

/-- Dropping the entries at path `p` does not disturb the lookup of a
different path `q`. -/
theorem find?_filter_ne (l : List (List String × String)) (p q : List String)
    (h : q ≠ p) :
    (l.filter (fun e => e.1 ≠ p)).find? (fun e => e.1 == q) =
      l.find? (fun e => e.1 == q) := by
  induction l with
  | nil => rfl
  | cons e l ih =>
      rw [List.filter_cons]
      by_cases he : e.1 = p
      · have hq : (e.1 == q) = false := by
          rw [beq_eq_false_iff_ne, he]
          exact fun hx => h hx.symm
        rw [if_neg (by simp [he]), List.find?_cons_of_neg _ (by simp [hq]), ih]
      · by_cases heq : e.1 = q
        · rw [if_pos (by simp [he]), List.find?_cons_of_pos _ (by simp [heq]),
              List.find?_cons_of_pos _ (by simp [heq])]
        · rw [if_pos (by simp [he]), List.find?_cons_of_neg _ (by simp [heq]),
              List.find?_cons_of_neg _ (by simp [heq]), ih]

/-- Writing the file at `p` does not disturb the lookup of any other path. -/
theorem find?_setFile_ne (files : List (List String × String))
    (p q : List String) (content : String) (h : q ≠ p) :
    (setFile files p content).find? (fun e => e.1 == q) =
      files.find? (fun e => e.1 == q) := by
  unfold setFile
  have hpq : (((p, content) : List String × String).1 == q) = false := by
    rw [beq_eq_false_iff_ne]
    exact fun hx => h hx.symm
  rw [List.find?_cons_of_neg _ (by simp [hpq])]
  exact find?_filter_ne files p q h

/-- A string of printable characters other than the quote and the backslash is
emitted verbatim by the JSON string encoder: this is the `ensure_ascii=False`
behaviour, under which non-ASCII characters are preserved, not escaped. -/
theorem escapeList_plain (l : List Char)
    (h : ∀ c ∈ l, 32 ≤ c.toNat ∧ c ≠ '"' ∧ c ≠ '\\') :
    escapeList l = String.mk l := by
  induction l with
  | nil => rfl
  | cons c cs ih =>
      obtain ⟨h1, h2, h3⟩ := h c (List.mem_cons_self c cs)
      have hn : c ≠ '\n' := by rintro rfl; exact absurd h1 (by decide)
      have hr : c ≠ '\r' := by rintro rfl; exact absurd h1 (by decide)
      have ht : c ≠ '\t' := by rintro rfl; exact absurd h1 (by decide)
      have hb : c ≠ '\x08' := by rintro rfl; exact absurd h1 (by decide)
      have hf : c ≠ '\x0c' := by rintro rfl; exact absurd h1 (by decide)
      have hlt : ¬ c.toNat < 32 := by omega
      have hesc : escapeChar c = String.singleton c := by
        unfold escapeChar
        rw [if_neg h2, if_neg h3, if_neg hn, if_neg hr, if_neg ht, if_neg hb,
            if_neg hf, if_neg hlt]
      have hrest : escapeList cs = String.mk cs :=
        ih (fun c hc => h c (List.mem_cons_of_mem _ hc))
      show escapeChar c ++ escapeList cs = String.mk (c :: cs)
      rw [hesc, hrest]
      apply String.ext
      simp [String.singleton]

/-! ## Claims -/

/-- C1: for every stored case whose `securityAnswer` is `A` and every provided
answer equal to `A` after trimming whitespace and lowercasing both sides,
`verifyAnswer` with an active case loaded returns `verified = true` (and marks
the session verified). -/
theorem verify_matching_answer_verified (st : SessionState) (c : CaseRecord)
    (ans : String) (hc : st.activeCase = some c)
    (hm : normalizeAnswer ans = normalizeAnswer c.securityAnswer) :
    (verifyAnswer st ans).1 =
      .ok true (st.verificationAttempts + 1)
        (MAX_VERIFICATION_ATTEMPTS - (st.verificationAttempts + 1)) ∧
    (verifyAnswer st ans).2.isVerified = true := by
  simp [verifyAnswer, hc, hm]

/-- Witness for C1 at the seeded test record: answer `"Blue "` against stored
`"blue"`. -/
theorem verify_matching_answer_verified_witness :
    sampleSession.activeCase = some sampleCase ∧
    normalizeAnswer "Blue " = normalizeAnswer sampleCase.securityAnswer ∧
    ((verifyAnswer sampleSession "Blue ").1 =
        .ok true (sampleSession.verificationAttempts + 1)
          (MAX_VERIFICATION_ATTEMPTS - (sampleSession.verificationAttempts + 1)) ∧
      (verifyAnswer sampleSession "Blue ").2.isVerified = true) :=
  ⟨rfl, by decide,
   verify_matching_answer_verified sampleSession sampleCase "Blue " rfl
     (by decide)⟩

/-- C2: every call to `verifyAnswer` with an active case increments the
attempts counter by exactly one, whether or not the answer matches, and the
returned `attempts_left` equals `max 0 (MAX_VERIFICATION_ATTEMPTS -
attempts_used)` with the constant equal to 2. -/
theorem verify_increments_attempts (st : SessionState) (c : CaseRecord)
    (ans : String) (hc : st.activeCase = some c) :
    ∃ v : Bool,
      (verifyAnswer st ans).1 =
        .ok v (st.verificationAttempts + 1)
          (MAX_VERIFICATION_ATTEMPTS - (st.verificationAttempts + 1)) ∧
      (verifyAnswer st ans).2.verificationAttempts =
        st.verificationAttempts + 1 ∧
      ((MAX_VERIFICATION_ATTEMPTS - (st.verificationAttempts + 1) : Nat) : Int) =
        max 0 ((MAX_VERIFICATION_ATTEMPTS : Int) -
          ((st.verificationAttempts : Int) + 1)) ∧
      MAX_VERIFICATION_ATTEMPTS = 2 := by
  unfold verifyAnswer
  rw [hc]
  refine ⟨normalizeAnswer ans == normalizeAnswer c.securityAnswer, rfl, rfl, ?_, rfl⟩
  simp only [MAX_VERIFICATION_ATTEMPTS]
  omega

/-- Witness for C2 at the seeded test record with the mismatching answer
`"green"`. -/
theorem verify_increments_attempts_witness :
    sampleSession.activeCase = some sampleCase ∧
    (∃ v : Bool,
      (verifyAnswer sampleSession "green").1 =
        .ok v (sampleSession.verificationAttempts + 1)
          (MAX_VERIFICATION_ATTEMPTS - (sampleSession.verificationAttempts + 1)) ∧
      (verifyAnswer sampleSession "green").2.verificationAttempts =
        sampleSession.verificationAttempts + 1 ∧
      ((MAX_VERIFICATION_ATTEMPTS - (sampleSession.verificationAttempts + 1) : Nat) : Int) =
        max 0 ((MAX_VERIFICATION_ATTEMPTS : Int) -
          ((sampleSession.verificationAttempts : Int) + 1)) ∧
      MAX_VERIFICATION_ATTEMPTS = 2) :=
  ⟨rfl, verify_increments_attempts sampleSession sampleCase "green" rfl⟩

/-- C3: for every attempts count — including counts at or above
`MAX_VERIFICATION_ATTEMPTS` — `verifyAnswer` with an active case still
processes the answer and returns a verdict, never a lockout error: the state
machine imposes no hard stop at `MAX_VERIFICATION_ATTEMPTS`. -/
theorem verify_no_lockout (st : SessionState) (c : CaseRecord) (ans : String)
    (hc : st.activeCase = some c) :
    ∃ (v : Bool) (u l : Nat), (verifyAnswer st ans).1 = .ok v u l := by
  unfold verifyAnswer
  rw [hc]
  exact ⟨_, _, _, rfl⟩

/-- Witness for C3 on a session whose counter (5) already exceeds
`MAX_VERIFICATION_ATTEMPTS` (2). -/
theorem verify_no_lockout_witness :
    MAX_VERIFICATION_ATTEMPTS ≤ exhaustedSession.verificationAttempts ∧
    exhaustedSession.activeCase = some sampleCase ∧
    (∃ (v : Bool) (u l : Nat),
      (verifyAnswer exhaustedSession "anything").1 = .ok v u l) :=
  ⟨by decide, rfl,
   verify_no_lockout exhaustedSession sampleCase "anything" rfl⟩

/-- C4: with an active case loaded, `updateCaseStatus` rejects every status
outside the three terminal values with a validation error and, independently,
rejects every note that is empty after trimming; in both cases the session
state and the backing file are returned unchanged and the file is not
written. -/
theorem update_invalid_input_rejected (st : SessionState) (c : CaseRecord)
    (file : List CaseRecord) (status note now : String)
    (hc : st.activeCase = some c) :
    (status ∉ ALLOWED_STATUSES →
      updateCaseStatus st file status note now =
        ⟨.error "status must be one of: confirmed_safe, confirmed_fraud, verification_failed",
         st, file, false⟩) ∧
    (trimString note = "" →
      ∃ msg, updateCaseStatus st file status note now =
        ⟨.error msg, st, file, false⟩) := by
  constructor
  · intro h
    simp [updateCaseStatus, hc, h]
  · intro h
    by_cases hs : status ∈ ALLOWED_STATUSES
    · refine ⟨"note must be non-empty", ?_⟩
      simp [updateCaseStatus, hc, hs, h]
    · refine ⟨"status must be one of: confirmed_safe, confirmed_fraud, verification_failed", ?_⟩
      simp [updateCaseStatus, hc, hs]

/-- Witness for C4: the status `"reviewed"` is rejected, and a whitespace-only
note is rejected, both leaving state and file untouched. -/
theorem update_invalid_input_rejected_witness :
    sampleSession.activeCase = some sampleCase ∧
    "reviewed" ∉ ALLOWED_STATUSES ∧
    trimString "   " = "" ∧
    (updateCaseStatus sampleSession [sampleCase] "reviewed" "ok" "T" =
      ⟨.error "status must be one of: confirmed_safe, confirmed_fraud, verification_failed",
       sampleSession, [sampleCase], false⟩) ∧
    (∃ msg, updateCaseStatus sampleSession [sampleCase] "confirmed_fraud" "   " "T" =
      ⟨.error msg, sampleSession, [sampleCase], false⟩) :=
  ⟨rfl, by decide, by decide,
   (update_invalid_input_rejected sampleSession sampleCase [sampleCase]
     "reviewed" "ok" "T" rfl).1 (by decide),
   (update_invalid_input_rejected sampleSession sampleCase [sampleCase]
     "confirmed_fraud" "   " "T" rfl).2 (by decide)⟩

/-- C5: after a successful `updateCaseStatus` on an active case, the file is
written and its record list has the same length; every record whose `caseId`
matches the active case carries the new status, the trimmed note and the fresh
`updatedAt`, and every other record is byte-for-byte unchanged, at its
original position. -/
theorem update_success_roundtrip (st : SessionState) (c : CaseRecord)
    (file : List CaseRecord) (status note now : String)
    (hc : st.activeCase = some c)
    (hs : status ∈ ALLOWED_STATUSES)
    (hn : trimString note ≠ "")
    (hf : ∃ r ∈ file, r.caseId = c.caseId) :
    (updateCaseStatus st file status note now).wrote = true ∧
    (updateCaseStatus st file status note now).file.length = file.length ∧
    ∀ (i : Nat) (r : CaseRecord), file[i]? = some r →
      ((r.caseId = c.caseId →
        (updateCaseStatus st file status note now).file[i]? =
          some { r with status := some status
                        outcomeNote := some (trimString note)
                        updatedAt := now }) ∧
       (r.caseId ≠ c.caseId →
        (updateCaseStatus st file status note now).file[i]? = some r)) := by
  have hsome : (file.find? (fun r => r.caseId == c.caseId)).isSome := by
    rw [List.find?_isSome]
    obtain ⟨r, hr, he⟩ := hf
    exact ⟨r, hr, by simp [he]⟩
  obtain ⟨r0, h0⟩ := Option.isSome_iff_exists.mp hsome
  have hout : updateCaseStatus st file status note now =
      ⟨.updated (maskCase { r0 with status := some status
                                    outcomeNote := some (trimString note)
                                    updatedAt := now }),
       { st with activeCase := some { r0 with status := some status
                                              outcomeNote := some (trimString note)
                                              updatedAt := now } },
       file.map (fun r =>
         if r.caseId == c.caseId then
           { r with status := some status
                    outcomeNote := some (trimString note)
                    updatedAt := now }
         else r),
       true⟩ := by
    simp [updateCaseStatus, hc, hs, hn, h0]
  rw [hout]
  refine ⟨rfl, by simp, ?_⟩
  intro i r hr
  constructor
  · intro he
    have hb : (r.caseId == c.caseId) = true := by simp [he]
    simp only [List.getElem?_map, hr, Option.map_some']
    rw [if_pos hb]
  · intro he
    have hb : ¬ ((r.caseId == c.caseId) = true) := by simp [he]
    simp only [List.getElem?_map, hr, Option.map_some']
    rw [if_neg hb]

/-- Witness for C5: disposing the seeded case `CASE-001` as confirmed fraud in
a two-record store updates exactly the first record and leaves `CASE-002`
unchanged. -/
theorem update_success_roundtrip_witness :
    sampleSession.activeCase = some sampleCase ∧
    "confirmed_fraud" ∈ ALLOWED_STATUSES ∧
    trimString "card frozen" ≠ "" ∧
    (∃ r ∈ [sampleCase, otherCase], r.caseId = sampleCase.caseId) ∧
    ((updateCaseStatus sampleSession [sampleCase, otherCase] "confirmed_fraud"
        "card frozen" "2025-11-21T00:00:00Z").wrote = true ∧
     (updateCaseStatus sampleSession [sampleCase, otherCase] "confirmed_fraud"
        "card frozen" "2025-11-21T00:00:00Z").file.length =
       [sampleCase, otherCase].length ∧
     ∀ (i : Nat) (r : CaseRecord), [sampleCase, otherCase][i]? = some r →
       ((r.caseId = sampleCase.caseId →
         (updateCaseStatus sampleSession [sampleCase, otherCase]
            "confirmed_fraud" "card frozen" "2025-11-21T00:00:00Z").file[i]? =
           some { r with status := some "confirmed_fraud"
                         outcomeNote := some (trimString "card frozen")
                         updatedAt := "2025-11-21T00:00:00Z" }) ∧
        (r.caseId ≠ sampleCase.caseId →
         (updateCaseStatus sampleSession [sampleCase, otherCase]
            "confirmed_fraud" "card frozen" "2025-11-21T00:00:00Z").file[i]? =
           some r))) :=
  ⟨rfl, by decide, by decide, by decide,
   update_success_roundtrip sampleSession sampleCase [sampleCase, otherCase]
     "confirmed_fraud" "card frozen" "2025-11-21T00:00:00Z" rfl (by decide)
     (by decide) (by decide)⟩

/-- C6: the caller-facing view built by `maskCase` carries no
`securityAnswer` — it is invariant under any change of the stored answer —
while every other stored field passes through, with `currency` defaulting to
`"USD"` and `status`/`outcomeNote` defaulting to `"pending_review"`/`""` when
absent on the stored record. -/
theorem mask_omits_security_answer (c : CaseRecord) :
    (∀ a : String, maskCase { c with securityAnswer := a } = maskCase c) ∧
    (maskCase c).caseId = c.caseId ∧
    (maskCase c).userName = c.userName ∧
    (maskCase c).securityQuestion = c.securityQuestion ∧
    (maskCase c).cardMask = c.cardMask ∧
    (maskCase c).transactionAmount = c.transactionAmount ∧
    (maskCase c).transactionName = c.transactionName ∧
    (maskCase c).transactionCategory = c.transactionCategory ∧
    (maskCase c).transactionSource = c.transactionSource ∧
    (maskCase c).location = c.location ∧
    (maskCase c).transactionTime = c.transactionTime ∧
    (maskCase c).channel = c.channel ∧
    (maskCase c).createdAt = c.createdAt ∧
    (maskCase c).updatedAt = c.updatedAt ∧
    (maskCase c).currency = c.currency.getD "USD" ∧
    (maskCase c).status = c.status.getD "pending_review" ∧
    (maskCase c).outcomeNote = c.outcomeNote.getD "" :=
  ⟨fun _ => rfl, rfl, rfl, rfl, rfl, rfl, rfl, rfl, rfl, rfl, rfl, rfl, rfl,
   rfl, rfl, rfl, rfl⟩

/-- C7: a load from an absent or malformed backing file is non-fatal and
yields the empty/initial state: the fraud store's `loadAll` returns the empty
sequence, and the Game Master's `_load_world_state` returns `false` leaving
the current (freshly initialized) world state untouched. -/
theorem load_missing_or_malformed_nonfatal :
    loadAll .absent = [] ∧
    (∀ raw, loadAll (.malformed raw) = []) ∧
    (∀ ws, loadWorldState .absent ws = (false, ws)) ∧
    (∀ raw ws, loadWorldState (.malformed raw) ws = (false, ws)) :=
  ⟨rfl, fun _ => rfl, fun _ => rfl, fun _ _ => rfl⟩

/-- C8: `_save_world_state` overwrites the backing file with the full
serialized world state rendered by the `indent=2`, `ensure_ascii=False`
dump, ensures the parent directory exists, touches no other file, keeps
printable characters — non-ASCII included — unescaped, and produces 2-space
indented output (shown on a concrete object containing `é` and `⚔`). -/
theorem save_overwrites_pretty_printed (ws : WorldState) (fs : FileSystem) :
    readFile (saveWorldState ws fs) gameStatePath =
      some (dumps 2 ws.to_dict 0) ∧
    gameStateDir ∈ (saveWorldState ws fs).dirs ∧
    (∀ p, p ≠ gameStatePath →
      readFile (saveWorldState ws fs) p = readFile fs p) ∧
    (∀ s : String, (∀ c ∈ s.data, 32 ≤ c.toNat ∧ c ≠ '"' ∧ c ≠ '\\') →
      encodeString s = "\"" ++ s ++ "\"") ∧
    dumps 2 (Json.obj [("hp", Json.num 100),
        ("name", Json.str "Adventurer é⚔")]) 0 =
      "\x7b\n  \"hp\": 100,\n  \"name\": \"Adventurer é⚔\"\n\x7d" := by
  refine ⟨?_, ?_, ?_, ?_, by decide⟩
  · simp [saveWorldState, ensureDir, readFile, setFile]
  · by_cases h : gameStateDir ∈ fs.dirs
    · simp [saveWorldState, ensureDir, h]
    · simp [saveWorldState, ensureDir, h]
  · intro p hp
    simp only [saveWorldState, ensureDir, readFile]
    rw [find?_setFile_ne fs.files gameStatePath p _ hp]
  · intro s h
    obtain ⟨l⟩ := s
    show "\"" ++ escapeList l ++ "\"" = "\"" ++ String.mk l ++ "\""
    rw [escapeList_plain l h]

/-- Witness for C8: saving a concrete world over an empty filesystem leaves
another path unread, and a concrete non-ASCII string is encoded verbatim. -/
theorem save_overwrites_pretty_printed_witness :
    (["other.json"] : List String) ≠ gameStatePath ∧
    (∀ c ∈ "café ☕".data, 32 ≤ c.toNat ∧ c ≠ '"' ∧ c ≠ '\\') ∧
    readFile (saveWorldState sampleWorld emptyFS) ["other.json"] =
      readFile emptyFS ["other.json"] ∧
    encodeString "café ☕" = "\"" ++ "café ☕" ++ "\"" :=
  ⟨by decide, by decide,
   (save_overwrites_pretty_printed sampleWorld emptyFS).2.2.1 ["other.json"]
     (by decide),
   (save_overwrites_pretty_printed sampleWorld emptyFS).2.2.2.1 "café ☕"
     (by decide)⟩

/-- Updating one attribute's value never changes the key list. -/
theorem updateAttr_fst (l : List (String × Int)) (a : String) (v : Int) :
    (l.map (fun q => if q.1 = a then (q.1, max 1 (q.2 + v)) else q)).map
        Prod.fst = l.map Prod.fst := by
  rw [List.map_map]
  apply List.map_congr_left
  intro q _
  by_cases h : q.1 = a <;> simp [h]

/-- After the attribute update, every entry either is at least 1 or was
already present unchanged. -/
theorem updateAttr_mem (l : List (String × Int)) (a : String) (v : Int) :
    ∀ q ∈ l.map (fun q => if q.1 = a then (q.1, max 1 (q.2 + v)) else q),
      1 ≤ q.2 ∨ q ∈ l := by
  intro q hq
  rw [List.mem_map] at hq
  obtain ⟨b, hb, rfl⟩ := hq
  by_cases h : b.1 = a
  · rw [if_pos h]
    exact Or.inl (le_max_left 1 _)
  · rw [if_neg h]
    exact Or.inr hb

/-- C9: starting from any player with `0 ≤ hp ≤ max_hp` and for every
`hp_change` (positive or negative), `update_player_stats` keeps the player's
hp clamped within `[0, max_hp]` (with `max_hp` unchanged); every attribute
key present before is exactly the key set after (in particular no attribute
is ever added), and every attribute entry after the call is at least 1 or is
an untouched original entry. -/
theorem update_player_stats_invariants (ws : WorldState) (fs : FileSystem)
    (hp_change : Int) (attr : String) (value : Int)
    (h0 : 0 ≤ ws.player.hp) (h1 : ws.player.hp ≤ ws.player.max_hp) :
    0 ≤ (update_player_stats ws fs hp_change attr value).2.1.player.hp ∧
    (update_player_stats ws fs hp_change attr value).2.1.player.hp ≤
      (update_player_stats ws fs hp_change attr value).2.1.player.max_hp ∧
    (update_player_stats ws fs hp_change attr value).2.1.player.max_hp =
      ws.player.max_hp ∧
    (update_player_stats ws fs hp_change attr value).2.1.player.attributes.map
        Prod.fst = ws.player.attributes.map Prod.fst ∧
    ∀ q ∈ (update_player_stats ws fs hp_change attr value).2.1.player.attributes,
      1 ≤ q.2 ∨ q ∈ ws.player.attributes := by
  unfold update_player_stats
  dsimp only
  split_ifs <;>
    refine ⟨?_, ?_, rfl, ?_, ?_⟩ <;>
    first
      | exact le_max_left 0 _
      | exact max_le (h0.trans h1) (min_le_left _ _)
      | exact h0
      | exact h1
      | exact updateAttr_fst _ _ _
      | rfl
      | exact updateAttr_mem _ _ _
      | exact fun q hq => Or.inr hq

/-- Witness for C9: a heavy blow (`hp_change = -200`) on a player at 50/100
hp together with a `-50` strength modification. -/
theorem update_player_stats_invariants_witness :
    (0 : Int) ≤ sampleWorld.player.hp ∧
    sampleWorld.player.hp ≤ sampleWorld.player.max_hp ∧
    (0 ≤ (update_player_stats sampleWorld emptyFS (-200) "strength"
        (-50)).2.1.player.hp ∧
     (update_player_stats sampleWorld emptyFS (-200) "strength"
        (-50)).2.1.player.hp ≤
       (update_player_stats sampleWorld emptyFS (-200) "strength"
          (-50)).2.1.player.max_hp ∧
     (update_player_stats sampleWorld emptyFS (-200) "strength"
        (-50)).2.1.player.max_hp = sampleWorld.player.max_hp ∧
     (update_player_stats sampleWorld emptyFS (-200) "strength"
        (-50)).2.1.player.attributes.map Prod.fst =
       sampleWorld.player.attributes.map Prod.fst ∧
     ∀ q ∈ (update_player_stats sampleWorld emptyFS (-200) "strength"
        (-50)).2.1.player.attributes,
       1 ≤ q.2 ∨ q ∈ sampleWorld.player.attributes) :=
  ⟨by decide, by decide,
   update_player_stats_invariants sampleWorld emptyFS (-200) "strength" (-50)
     (by decide) (by decide)⟩

/-- Adding an item already in the inventory changes nothing. -/
theorem add_to_inventory_mem_eq (ws : WorldState) (fs : FileSystem)
    (item now : String) (h : item ∈ ws.player.inventory) :
    add_to_inventory ws fs item now = (.already_owned item, ws, fs) := by
  simp [add_to_inventory, h]

/-- C10: `add_to_inventory` never creates duplicates and is idempotent:
adding an absent item appends it exactly once and reports `added`; adding a
present item reports `already_owned` and leaves the world state (inventory
and event log) and the filesystem exactly as they were; a duplicate-free
inventory stays duplicate-free; and an immediate second add of the same item
is always a no-op `already_owned`. -/
theorem add_to_inventory_idempotent (ws : WorldState) (fs : FileSystem)
    (item now now2 : String) :
    (item ∉ ws.player.inventory →
      (add_to_inventory ws fs item now).1 =
        .added item (ws.player.inventory ++ [item]) ∧
      (add_to_inventory ws fs item now).2.1.player.inventory =
        ws.player.inventory ++ [item]) ∧
    (item ∈ ws.player.inventory →
      add_to_inventory ws fs item now = (.already_owned item, ws, fs)) ∧
    (ws.player.inventory.Nodup →
      (add_to_inventory ws fs item now).2.1.player.inventory.Nodup) ∧
    add_to_inventory (add_to_inventory ws fs item now).2.1
        (add_to_inventory ws fs item now).2.2 item now2 =
      (.already_owned item, (add_to_inventory ws fs item now).2.1,
       (add_to_inventory ws fs item now).2.2) := by
  by_cases h : item ∈ ws.player.inventory
  · refine ⟨fun h2 => absurd h h2, fun _ => add_to_inventory_mem_eq ws fs item now h,
      fun hnd => ?_, ?_⟩
    · rw [add_to_inventory_mem_eq ws fs item now h]
      exact hnd
    · rw [add_to_inventory_mem_eq ws fs item now h]
      exact add_to_inventory_mem_eq ws fs item now2 h
  · have hinv : (add_to_inventory ws fs item now).2.1.player.inventory =
        ws.player.inventory ++ [item] := by
      simp [add_to_inventory, h, WorldState.add_event]
    refine ⟨fun _ => ⟨?_, hinv⟩, fun h2 => absurd h2 h, fun hnd => ?_, ?_⟩
    · simp [add_to_inventory, h, WorldState.add_event]
    · rw [hinv, List.nodup_append]
      refine ⟨hnd, List.nodup_singleton _, ?_⟩
      intro a ha hmem
      rw [List.mem_singleton] at hmem
      subst hmem
      exact h ha
    · have hmem : item ∈ (add_to_inventory ws fs item now).2.1.player.inventory := by
        rw [hinv]
        simp
      exact add_to_inventory_mem_eq _ _ item now2 hmem

/-- Witness for C10: adding `"sword"` (absent) appends it once; adding
`"torch"` (present) is a no-op. -/
theorem add_to_inventory_idempotent_witness :
    "sword" ∉ sampleWorld.player.inventory ∧
    ((add_to_inventory sampleWorld emptyFS "sword" "t1").1 =
        .added "sword" (sampleWorld.player.inventory ++ ["sword"]) ∧
      (add_to_inventory sampleWorld emptyFS "sword" "t1").2.1.player.inventory =
        sampleWorld.player.inventory ++ ["sword"]) ∧
    "torch" ∈ sampleWorld.player.inventory ∧
    add_to_inventory sampleWorld emptyFS "torch" "t1" =
      (.already_owned "torch", sampleWorld, emptyFS) :=
  ⟨by decide,
   (add_to_inventory_idempotent sampleWorld emptyFS "sword" "t1" "t2").1
     (by decide),
   by decide,
   (add_to_inventory_idempotent sampleWorld emptyFS "torch" "t1" "t2").2.1
     (by decide)⟩

end VoiceAgents
